import Mathlib

/-!
Shallow embedding of the preview-mode page of `src/src/pages/index.tsx`:
the Preview Resolver (`getStaticProps`), the Edit Collector and save
trigger (`share`), and the pending-save guard (`setSharing`).  The save
endpoint `/api/save` is not part of the sources, so the Snapshot Service
is modelled from the specification where a claim needs it.
-/

/-- FieldEdit record (spec §3; declared in `components/malleable`, not under
`src/`): the id of one editable region together with its current text.  The
collector in `share` populates the text field from the element's
`innerText`. -/
structure FieldEdit where
  id : String
  text : String
deriving DecidableEq, Repr

/-- Body of a stored snapshot object.  `editsDoc` is a JSON document that
parses to a FieldEdit array (the only shape the system ever writes);
`invalid` is a body on which `JSON.parse` throws. -/
inductive StoredDoc where
  | editsDoc (edits : List FieldEdit)
  | invalid
deriving DecidableEq, Repr

/-- Outcome of `s3.getObject` for one key: either a body, or a rejection
carrying the optional `statusCode` field of the thrown error (`none` models
an error object without a status code, e.g. a pure connectivity failure). -/
inductive S3GetResult where
  | ok (body : StoredDoc)
  | error (statusCode : Option Nat)
deriving DecidableEq, Repr

/-- The snapshot store: what `s3.getObject` yields at each key. -/
def Store : Type := String → S3GetResult

/-- Overwrite one key of the store (a blind `putObject`). -/
def storeWrite (store : Store) (key : String) (doc : StoredDoc) : Store :=
  fun k => if k = key then S3GetResult.ok doc else store k

/-- Props object returned by `getStaticProps`.  Fields that a given return
site omits are `none`, mirroring the literal JS objects
(isPreview/snapshotId/contents on success, isPreview/hasError/message on
failure, isPreview alone outside preview mode). -/
structure Props where
  isPreview : Bool
  snapshotId : Option String
  contents : Option (List FieldEdit)
  hasError : Option Bool
  message : Option String
deriving DecidableEq, Repr

/-- The success props literal of line 46: isPreview true, snapshotId,
contents, nothing else. -/
def previewProps (sid : Option String) (es : List FieldEdit) : Props :=
  ⟨true, sid, some es, none, none⟩

/-- The error props literal of lines 50-59: isPreview false, hasError true,
a message, nothing else. -/
def errorProps (msg : String) : Props :=
  ⟨false, none, none, some true, some msg⟩

/-- The props literal of line 63 for non-preview requests: isPreview false
and no other field. -/
def defaultProps : Props :=
  ⟨false, none, none, none, none⟩

/-- Message of line 57, returned when the caught error has statusCode 403. -/
def notExistMessage : String :=
  "The requested preview edit does not exist!"

/-- Message of line 58, returned on every other caught error. -/
def connectivityMessage : String :=
  "An error has occurred while connecting to S3. Please refresh the page to try again."

/-- The `previewData` object when it is present: it may or may not carry a
`snapshotId` field (`as { snapshotId: string }` is an unchecked cast). -/
structure PreviewData where
  snapshotId : Option String
deriving DecidableEq, Repr

/-- String interpolation of line 40: an absent `snapshotId` stringifies to
"undefined" inside the template literal. -/
def snapshotIdString : Option String → String
  | some s => s
  | none => "undefined"

/-- A JavaScript exception escaping `getStaticProps`. -/
inductive JsError where
  | typeError (msg : String)
deriving DecidableEq, Repr

/-- Message of the TypeError thrown by line 33 when `previewData` is
undefined. -/
def destructureErrorMsg : String :=
  "Cannot destructure property snapshotId of previewData as it is undefined."

/-- The Preview Resolver, `getStaticProps` of lines 23-64.  Returns the
outcome (props, or an uncaught exception) together with the list of store
keys read.  When `preview` is true the code first destructures
`previewData` outside the try block (line 33) — this throws when
`previewData` is absent; otherwise it reads `"<snapshotId>.json"` inside
the try block, parses the body, and maps any caught error to an error
props value, choosing the message by `e.statusCode === 403` (line 56). -/
def getStaticProps (preview : Bool) (previewData : Option PreviewData)
    (store : Store) : Except JsError Props × List String :=
  if preview then
    match previewData with
    | none => (Except.error (JsError.typeError destructureErrorMsg), [])
    | some pd =>
      match store (snapshotIdString pd.snapshotId ++ ".json") with
      | S3GetResult.ok (StoredDoc.editsDoc es) =>
          (Except.ok (previewProps pd.snapshotId es),
           [snapshotIdString pd.snapshotId ++ ".json"])
      | S3GetResult.ok StoredDoc.invalid =>
          (Except.ok (errorProps connectivityMessage),
           [snapshotIdString pd.snapshotId ++ ".json"])
      | S3GetResult.error code =>
          (Except.ok (errorProps
            (if code = some 403 then notExistMessage else connectivityMessage)),
           [snapshotIdString pd.snapshotId ++ ".json"])
  else (Except.ok defaultProps, [])

/-- Predicate: the resolver raised to its caller instead of returning
props. -/
def isRaised : Except JsError Props → Bool
  | Except.error _ => true
  | Except.ok _ => false

/-- Modelled from the spec: the Snapshot Service `save` (spec §4.2) lives in
the `/api/save` endpoint, which is not among the sources.  Per the spec it
generates a fresh identifier (taken here as the argument `freshId`),
serializes the edits, writes them to the store under key `"<id>.json"`, and
returns the identifier. -/
def save (store : Store) (freshId : String) (edits : List FieldEdit) :
    String × Store :=
  (freshId, storeWrite store (freshId ++ ".json") (StoredDoc.editsDoc edits))

/-- A rendered document node: its `id` attribute (absent when the element
has no id), whether it is marked `contenteditable=true`, its `innerText`,
and its child elements in document order. -/
inductive Dom where
  | node (id : Option String) (editable : Bool) (text : String)
      (children : List Dom)

mutual

/-- The Edit Collector of `share` lines 96-99: the selector
`[id] > [contenteditable=true]` matches editable elements whose immediate
parent carries an id attribute, and each match is mapped to its parent's id
and its own text.  `pid` is the id of the current node's parent;
traversal is document (pre-)order. -/
def collectAux (pid : Option String) : Dom → List FieldEdit
  | Dom.node id ed t cs =>
    (match pid, ed with
      | some p, true => [⟨p, t⟩]
      | _, _ => []) ++ collectListAux id cs

/-- Collector over a child list, each child having parent id `pid`. -/
def collectListAux (pid : Option String) : List Dom → List FieldEdit
  | [] => []
  | c :: cs => collectAux pid c ++ collectListAux pid cs

end

/-- Edits collected from a whole document (the document root has no
parent). -/
def collectEdits (d : Dom) : List FieldEdit :=
  collectAux none d

mutual

/-- Collector following the spec's words (§4.1): each editable element is
recorded under the id of its nearest identified ancestor.  `anc` is the id
of the nearest identified strict ancestor of the current node, if any. -/
def nearestAux (anc : Option String) : Dom → List FieldEdit
  | Dom.node id ed t cs =>
    (match anc, ed with
      | some a, true => [⟨a, t⟩]
      | _, _ => []) ++
    nearestListAux (if id.isSome then id else anc) cs

/-- Nearest-ancestor collector over a child list. -/
def nearestListAux (anc : Option String) : List Dom → List FieldEdit
  | [] => []
  | c :: cs => nearestAux anc c ++ nearestListAux anc cs

end

/-- Edits as the spec's words describe them, from a whole document. -/
def nearestCollect (d : Dom) : List FieldEdit :=
  nearestAux none d

mutual

/-- Number of elements marked editable in a document. -/
def editableCount : Dom → Nat
  | Dom.node _ ed _ cs => (if ed then 1 else 0) + editableCountList cs

/-- Number of elements marked editable in a child list. -/
def editableCountList : List Dom → Nat
  | [] => 0
  | c :: cs => editableCount c + editableCountList cs

end

mutual

/-- Every editable element below (and including) this node is a direct
child of an element carrying an id; `pid` is the id of the node's
parent. -/
def goodUnder (pid : Option String) : Dom → Bool
  | Dom.node id ed _ cs => (!ed || pid.isSome) && goodUnderList id cs

/-- The same condition over a child list with parent id `pid`. -/
def goodUnderList (pid : Option String) : List Dom → Bool
  | [] => true
  | c :: cs => goodUnder pid c && goodUnderList pid cs

end

/-- Client-side state relevant to the save flow of `Home`: the
`hasSaveRequest` ref, the `isSharingView` state, the current snapshot id
shown in the share dialog, and the current error shown in the error
dialog. -/
structure ClientState where
  hasSaveRequest : Bool
  isSharingView : Bool
  currentSnapshotId : Option String
  currentError : Option String
deriving DecidableEq, Repr

/-- The `setSharing` callback of lines 79-85: sets the ref and the state
together. -/
def setSharing (sharing : Bool) (s : ClientState) : ClientState :=
  { s with hasSaveRequest := sharing, isSharingView := sharing }

/-- A POST of the collected edits to `/api/save`. -/
structure SaveRequest where
  body : List FieldEdit
deriving DecidableEq, Repr

/-- The synchronous part of the `share` callback (lines 92-106): if a save
request is already pending it returns at once (line 93); otherwise it sets
the sharing flags, collects the edits from the document, and issues the
fetch.  The second component lists the network requests issued. -/
def shareStart (doc : Dom) (s : ClientState) :
    ClientState × List SaveRequest :=
  if s.hasSaveRequest then (s, [])
  else (setSharing true s, [⟨collectEdits doc⟩])

/-- How a pending save request settles: a 2xx response whose JSON body
carries the snapshot id, a non-2xx response whose text becomes the error,
or a network failure. -/
inductive SaveOutcome where
  | success (snapshotId : String)
  | httpError (msg : String)
  | networkFailure (msg : String)
deriving DecidableEq, Repr

/-- The continuation chain of `share` (lines 107-121): on a 2xx response
the snapshot id is stored, on a non-2xx response or network failure the
error is stored, and in every case the `finally` clause clears the sharing
flags. -/
def shareComplete (s : ClientState) : SaveOutcome → ClientState
  | SaveOutcome.success sid =>
      setSharing false { s with currentSnapshotId := some sid }
  | SaveOutcome.httpError msg =>
      setSharing false { s with currentError := some msg }
  | SaveOutcome.networkFailure msg =>
      setSharing false { s with currentError := some msg }

/-- Concrete edits used by witnesses: the spec's scenario edit set. -/
def demoEdits : List FieldEdit := [⟨"title", "Hello"⟩]

/-- Concrete store holding exactly the snapshot "abc123"; every other key
reads as access-denied, as the spec's private-bucket model prescribes. -/
def demoStore : Store := fun k =>
  if k = "abc123.json" then S3GetResult.ok (StoredDoc.editsDoc demoEdits)
  else S3GetResult.error (some 403)

/-- Concrete store whose every read is denied with status 403. -/
def allDeniedStore : Store := fun _ => S3GetResult.error (some 403)

/-- Concrete store whose every read fails without a status code (a pure
connectivity failure). -/
def allDownStore : Store := fun _ => S3GetResult.error none

/-- C1: saving an edit sequence and then resolving with an active preview
context carrying the returned identifier yields exactly the saved edits
back (list equality, which in particular is equality as a set of
id-to-text pairs), for every prior store state, generated identifier and
edit sequence, empty or not. -/
theorem save_resolve_roundtrip (store : Store) (freshId : String)
    (edits : List FieldEdit) :
    getStaticProps true (some ⟨some (save store freshId edits).1⟩)
        (save store freshId edits).2 =
      (Except.ok (previewProps (some freshId) edits), [freshId ++ ".json"]) := by
  simp [getStaticProps, save, storeWrite, snapshotIdString]

/-- C2: with the preview flag false, the resolver returns exactly the
props object with isPreview false and nothing else, reads no store key,
and does so for every previewData and every store state. -/
theorem resolve_inactive_default (previewData : Option PreviewData)
    (store : Store) :
    getStaticProps false previewData store = (Except.ok defaultProps, []) :=
  rfl

/-- C3: with the preview flag true and a snapshotId whose object reads and
parses successfully, the resolver reads exactly the key snapshotId ++
".json" and returns isPreview true, the same snapshotId and the parsed
edits. -/
theorem resolve_active_success (sid : String) (store : Store)
    (es : List FieldEdit)
    (h : store (sid ++ ".json") = S3GetResult.ok (StoredDoc.editsDoc es)) :
    getStaticProps true (some ⟨some sid⟩) store =
      (Except.ok (previewProps (some sid) es), [sid ++ ".json"]) := by
  simp [getStaticProps, snapshotIdString, h]

/-- Witness for C3 at the spec's scenario: snapshot "abc123" holding the
edit ⟨"title", "Hello"⟩. -/
theorem resolve_active_success_witness :
    demoStore "abc123.json" = S3GetResult.ok (StoredDoc.editsDoc demoEdits) ∧
    getStaticProps true (some ⟨some "abc123"⟩) demoStore =
      (Except.ok (previewProps (some "abc123") demoEdits), ["abc123.json"]) :=
  ⟨by decide, resolve_active_success "abc123" demoStore demoEdits (by decide)⟩

/-- C4: with the preview flag true, when the store read is rejected with
statusCode 403 (the not-found / forbidden signal), the resolver returns
isPreview false, hasError true and the does-not-exist message. -/
theorem resolve_notfound_message (sid : String) (store : Store)
    (h : store (sid ++ ".json") = S3GetResult.error (some 403)) :
    getStaticProps true (some ⟨some sid⟩) store =
      (Except.ok (errorProps notExistMessage), [sid ++ ".json"]) := by
  simp [getStaticProps, snapshotIdString, h]

/-- Witness for C4 at the spec's scenario: resolving a snapshot id that was
never written against a store that denies every read. -/
theorem resolve_notfound_message_witness :
    allDeniedStore "neverwritten.json" = S3GetResult.error (some 403) ∧
    getStaticProps true (some ⟨some "neverwritten"⟩) allDeniedStore =
      (Except.ok (errorProps notExistMessage), ["neverwritten.json"]) :=
  ⟨by decide,
   resolve_notfound_message "neverwritten" allDeniedStore (by decide)⟩

/-- C5: with the preview flag true, when the store read fails for any
reason other than the 403 signal — a rejection with a different or absent
status code, or a body on which parsing throws — the resolver returns
isPreview false, hasError true and the connectivity message. -/
theorem resolve_other_failure_message (sid : String) (store : Store)
    (h : (∃ code, store (sid ++ ".json") = S3GetResult.error code ∧
            code ≠ some 403) ∨
         store (sid ++ ".json") = S3GetResult.ok StoredDoc.invalid) :
    getStaticProps true (some ⟨some sid⟩) store =
      (Except.ok (errorProps connectivityMessage), [sid ++ ".json"]) := by
  rcases h with ⟨code, hc, hne⟩ | h
  · simp [getStaticProps, snapshotIdString, hc, hne]
  · simp [getStaticProps, snapshotIdString, h]

/-- Witness for C5: a store whose reads fail without any status code. -/
theorem resolve_other_failure_message_witness :
    ((∃ code, allDownStore "abc123.json" = S3GetResult.error code ∧
        code ≠ some 403) ∨
      allDownStore "abc123.json" = S3GetResult.ok StoredDoc.invalid) ∧
    getStaticProps true (some ⟨some "abc123"⟩) allDownStore =
      (Except.ok (errorProps connectivityMessage), ["abc123.json"]) :=
  ⟨Or.inl ⟨none, by decide, by decide⟩,
   resolve_other_failure_message "abc123" allDownStore
     (Or.inl ⟨none, by decide, by decide⟩)⟩

/-- Counterexample to C6: with the preview flag true and previewData
absent, the destructuring on line 33 runs before the try block and throws,
so the resolver raises to its caller instead of returning a result
value. -/
theorem resolve_raises_on_absent_previewData :
    (getStaticProps true none allDeniedStore).1 =
      Except.error (JsError.typeError destructureErrorMsg) ∧
    isRaised (getStaticProps true none allDeniedStore).1 = true :=
  ⟨rfl, rfl⟩

/-- C6 amended: the resolver never raises provided previewData is present
whenever the preview flag is true; every store-read or parse failure on
that path is encoded in the returned props value.  (With the flag true and
previewData absent, the destructuring before the try block throws.) -/
theorem resolve_never_raises (preview : Bool)
    (previewData : Option PreviewData) (store : Store)
    (h : preview = true → previewData ≠ none) :
    isRaised (getStaticProps preview previewData store).1 = false := by
  cases preview with
  | false => rfl
  | true =>
    cases previewData with
    | none => exact absurd rfl (h rfl)
    | some pd =>
      cases hs : store (snapshotIdString pd.snapshotId ++ ".json") with
      | ok body => cases body <;> simp [getStaticProps, isRaised, hs]
      | error code => simp [getStaticProps, isRaised, hs]

/-- Witness for C6 amended: an active context with previewData present,
against a store that denies every read. -/
theorem resolve_never_raises_witness :
    ((true : Bool) = true → (some ⟨some "abc123"⟩ : Option PreviewData) ≠ none) ∧
    isRaised (getStaticProps true (some ⟨some "abc123"⟩) allDeniedStore).1 =
      false :=
  ⟨fun _ h => Option.noConfusion h,
   resolve_never_raises true (some ⟨some "abc123"⟩) allDeniedStore
     (fun _ h => Option.noConfusion h)⟩

/-- C9: every props value the resolver can return satisfies the
exclusivity invariant — if isPreview is true then the hasError and message
fields are absent, and if hasError is present and true then isPreview is
false. -/
theorem resolve_result_invariant (preview : Bool)
    (previewData : Option PreviewData) (store : Store) (p : Props)
    (h : (getStaticProps preview previewData store).1 = Except.ok p) :
    (p.isPreview = true → p.hasError = none ∧ p.message = none) ∧
    (p.hasError = some true → p.isPreview = false) := by
  cases preview with
  | false =>
    have hp : p = defaultProps := by
      simpa [getStaticProps] using h.symm
    subst hp
    simp [defaultProps]
  | true =>
    cases previewData with
    | none => simp [getStaticProps] at h
    | some pd =>
      cases hs : store (snapshotIdString pd.snapshotId ++ ".json") with
      | ok body =>
        cases body with
        | editsDoc es =>
          have hp : p = previewProps pd.snapshotId es := by
            rw [getStaticProps] at h
            simp [hs] at h
            exact h.symm
          subst hp
          simp [previewProps]
        | invalid =>
          have hp : p = errorProps connectivityMessage := by
            rw [getStaticProps] at h
            simp [hs] at h
            exact h.symm
          subst hp
          simp [errorProps]
      | error code =>
        have hp : p = errorProps
            (if code = some 403 then notExistMessage
             else connectivityMessage) := by
          rw [getStaticProps] at h
          simp [hs] at h
          exact h.symm
        subst hp
        simp [errorProps]

/-- Witness for C9 at a concrete resolver run: the inactive path returning
the default props. -/
theorem resolve_result_invariant_witness :
    (getStaticProps false none allDeniedStore).1 = Except.ok defaultProps ∧
    ((defaultProps.isPreview = true →
        defaultProps.hasError = none ∧ defaultProps.message = none) ∧
     (defaultProps.hasError = some true → defaultProps.isPreview = false)) :=
  ⟨rfl, resolve_result_invariant false none allDeniedStore defaultProps rfl⟩

/-- C8: while a save request is pending (the hasSaveRequest ref is true)
triggering share again returns immediately, leaving the state unchanged
and issuing no network request at all — in particular none depending on
the document; and starting from an idle state, a first trigger issues
exactly one save request while an immediately following second trigger
issues none, so exactly one store write is requested per user-initiated
save action. -/
theorem share_pending_guard (doc doc' : Dom) (s : ClientState)
    (h : s.hasSaveRequest = true) (s0 : ClientState)
    (h0 : s0.hasSaveRequest = false) :
    shareStart doc s = (s, []) ∧
    (shareStart doc s0).2 = [⟨collectEdits doc⟩] ∧
    shareStart doc' (shareStart doc s0).1 = ((shareStart doc s0).1, []) := by
  refine ⟨?_, ?_, ?_⟩
  · simp [shareStart, h]
  · simp [shareStart, h0]
  · simp [shareStart, setSharing, h0]

/-- Witness for C8 on concrete states: one pending, one idle, with an
empty document. -/
theorem share_pending_guard_witness :
    (⟨true, true, none, none⟩ : ClientState).hasSaveRequest = true ∧
    (⟨false, false, none, none⟩ : ClientState).hasSaveRequest = false ∧
    (shareStart (Dom.node none false "" []) ⟨true, true, none, none⟩ =
        (⟨true, true, none, none⟩, []) ∧
      (shareStart (Dom.node none false "" []) ⟨false, false, none, none⟩).2 =
        [⟨collectEdits (Dom.node none false "" [])⟩] ∧
      shareStart (Dom.node none false "" [])
          (shareStart (Dom.node none false "" [])
            ⟨false, false, none, none⟩).1 =
        ((shareStart (Dom.node none false "" [])
            ⟨false, false, none, none⟩).1, [])) :=
  ⟨rfl, rfl,
   share_pending_guard (Dom.node none false "" []) (Dom.node none false "" [])
     ⟨true, true, none, none⟩ rfl ⟨false, false, none, none⟩ rfl⟩

/-- C10: however a save attempt settles — 2xx response, non-2xx response,
or network failure — the continuation chain ends in the finally clause
clearing both the hasSaveRequest ref and the isSharingView flag, so a
finished attempt never leaves the guard set. -/
theorem save_completion_clears_guard (s : ClientState) (o : SaveOutcome) :
    (shareComplete s o).hasSaveRequest = false ∧
    (shareComplete s o).isSharingView = false := by
  cases o <;> simp [shareComplete, setSharing]

/-- Induction principle for documents: to prove a property of every node
it suffices to prove it for a node given it for all its children. -/
theorem dom_ind (P : Dom → Prop)
    (h : ∀ id ed t cs, (∀ c ∈ cs, P c) → P (Dom.node id ed t cs)) :
    ∀ d, P d
  | Dom.node id ed t cs => h id ed t cs (fun c hc => dom_ind P h c)
termination_by d => sizeOf d
decreasing_by
  simp_wf
  have := List.sizeOf_lt_of_mem hc
  omega

/-- In a child list in which every editable element sits directly under an
identified element, the source collector and the nearest-identified-
ancestor collector agree, for any ancestor id consistent with the parent
id. -/
theorem collectList_eq_nearestList :
    ∀ (l : List Dom),
      (∀ c ∈ l, ∀ (pid anc : Option String), goodUnder pid c = true →
        (pid.isSome = true → anc = pid) → collectAux pid c = nearestAux anc c) →
      ∀ (pid anc : Option String), goodUnderList pid l = true →
        (pid.isSome = true → anc = pid) →
        collectListAux pid l = nearestListAux anc l := by
  intro l
  induction l with
  | nil => intro _ pid anc _ _; rfl
  | cons c cs ihl =>
    intro ih pid anc hgood hanc
    have hg : goodUnder pid c = true ∧ goodUnderList pid cs = true := by
      simpa [goodUnderList, Bool.and_eq_true] using hgood
    simp only [collectListAux, nearestListAux]
    rw [ih c (List.mem_cons_self c cs) pid anc hg.1 hanc,
        ihl (fun x hx => ih x (List.mem_cons_of_mem c hx)) pid anc hg.2 hanc]

/-- In a document in which every editable element sits directly under an
identified element, the source collector agrees with the nearest-
identified-ancestor description, for any ancestor id consistent with the
parent id. -/
theorem collect_eq_nearest_aux (d : Dom) :
    ∀ (pid anc : Option String), goodUnder pid d = true →
      (pid.isSome = true → anc = pid) →
      collectAux pid d = nearestAux anc d := by
  induction d using dom_ind with
  | h id ed t cs ih =>
    intro pid anc hgood hanc
    have hg : (!ed || pid.isSome) = true ∧ goodUnderList id cs = true := by
      simpa [goodUnder, Bool.and_eq_true] using hgood
    have tail : collectListAux id cs =
        nearestListAux (if id.isSome then id else anc) cs := by
      refine collectList_eq_nearestList cs ih id _ hg.2 ?_
      intro hid
      cases id with
      | some i => simp
      | none => simp at hid
    simp only [collectAux, nearestAux]
    rw [tail]
    cases ed with
    | false => cases pid <;> cases anc <;> rfl
    | true =>
      have hpid : pid.isSome = true := by simpa using hg.1
      cases pid with
      | none => simp at hpid
      | some p =>
        rw [hanc rfl]

/-- In a child list in which every editable element sits directly under an
identified element, the collector yields one record per editable
element. -/
theorem collectList_length :
    ∀ (l : List Dom),
      (∀ c ∈ l, ∀ pid : Option String, goodUnder pid c = true →
        (collectAux pid c).length = editableCount c) →
      ∀ pid : Option String, goodUnderList pid l = true →
        (collectListAux pid l).length = editableCountList l := by
  intro l
  induction l with
  | nil => intro _ pid _; rfl
  | cons c cs ihl =>
    intro ih pid hgood
    have hg : goodUnder pid c = true ∧ goodUnderList pid cs = true := by
      simpa [goodUnderList, Bool.and_eq_true] using hgood
    simp only [collectListAux, editableCountList, List.length_append]
    rw [ih c (List.mem_cons_self c cs) pid hg.1,
        ihl (fun x hx => ih x (List.mem_cons_of_mem c hx)) pid hg.2]

/-- In a document in which every editable element sits directly under an
identified element, the collector yields one record per editable
element. -/
theorem collect_length (d : Dom) :
    ∀ pid : Option String, goodUnder pid d = true →
      (collectAux pid d).length = editableCount d := by
  induction d using dom_ind with
  | h id ed t cs ih =>
    intro pid hgood
    have hg : (!ed || pid.isSome) = true ∧ goodUnderList id cs = true := by
      simpa [goodUnder, Bool.and_eq_true] using hgood
    simp only [collectAux, editableCount, List.length_append]
    rw [collectList_length cs ih id hg.2]
    cases ed with
    | false => cases pid <;> rfl
    | true =>
      have hpid : pid.isSome = true := by simpa using hg.1
      cases pid with
      | none => simp at hpid
      | some p => rfl

/-- Document with one editable element whose immediate parent carries no
id while its grandparent carries id "a": the element's nearest identified
ancestor exists, yet the selector of line 96 matches nothing. -/
def skippedDoc : Dom :=
  Dom.node (some "a") false "container"
    [Dom.node none false "wrapper" [Dom.node none true "hello" []]]

/-- Counterexample to C7: on skippedDoc the collector returns no record at
all, although the document contains exactly one editable element and the
nearest-identified-ancestor reading demands the record ⟨"a", "hello"⟩. -/
theorem collector_skips_deep_editable :
    collectEdits skippedDoc = [] ∧
    editableCount skippedDoc = 1 ∧
    nearestCollect skippedDoc = [⟨"a", "hello"⟩] := by
  refine ⟨rfl, rfl, rfl⟩

/-- C7 amended: the collector records one FieldEdit per editable element
that sits directly under an identified element, under that parent's id and
with the element's text; editable elements whose immediate parent is
unidentified are skipped even when a farther ancestor is identified.
Hence, for documents in which every editable element sits directly under
an identified element, the collector agrees with the nearest-identified-
ancestor description and yields one record per editable element, and when
the collected region ids are distinct it yields exactly one record per
distinct editable region id. -/
theorem collector_wellformed (d : Dom) (h : goodUnder none d = true) :
    collectEdits d = nearestCollect d ∧
    (collectEdits d).length = editableCount d ∧
    (((collectEdits d).map FieldEdit.id).Nodup →
      ∀ e ∈ collectEdits d,
        ((collectEdits d).map FieldEdit.id).count e.id = 1) := by
  refine ⟨?_, ?_, ?_⟩
  · exact collect_eq_nearest_aux d none none h (fun hx => by simp at hx)
  · exact collect_length d none h
  · intro hnodup e he
    exact List.count_eq_one_of_mem hnodup (List.mem_map_of_mem FieldEdit.id he)

/-- Document with two identified regions, each holding one editable
element directly. -/
def flatDoc : Dom :=
  Dom.node none false "root"
    [Dom.node (some "title") false "region" [Dom.node none true "Hello" []],
     Dom.node (some "body") false "region" [Dom.node none true "World" []]]

/-- Witness for C7 amended on flatDoc: both editable elements sit directly
under identified elements, and the collector returns one record per
region. -/
theorem collector_wellformed_witness :
    goodUnder none flatDoc = true ∧
    (collectEdits flatDoc = nearestCollect flatDoc ∧
     (collectEdits flatDoc).length = editableCount flatDoc ∧
     (((collectEdits flatDoc).map FieldEdit.id).Nodup →
       ∀ e ∈ collectEdits flatDoc,
         ((collectEdits flatDoc).map FieldEdit.id).count e.id = 1)) :=
  ⟨rfl, collector_wellformed flatDoc rfl⟩
